import Mathlib

/-!
Verification development for the gym-ticker repository.

The repository has two cooperating subsystems sharing a MySQL store:

* the collector (`scripts/collectGymHistory.js`, operation `collectGymHistory`,
  called `collectSnapshot` in the design document): reads all enabled in-region
  facility rows, appends one aggregated `gym_history` row, diffs current
  ownership against the last known ownership recorded in `gym_team_changes`,
  and runs an age-based retention sweep, all inside one DB transaction;
* the query layer (`src/server/gymData.ts`): `fetchGymHistory`,
  `fetchGymSnapshot` and `fetchDefenderStats`, read-only reconstructions over
  the same tables.

This file embeds both shallowly:

* DB tables become Lean lists of records; SQL `WHERE` clauses become list
  filters, `GROUP BY`/`ORDER BY` become explicit grouping and `mergeSort`,
  `ST_CONTAINS(geofence, POINT(lon, lat))` becomes the boolean field
  `inRegion` (the region-membership oracle, which the design document treats
  as an opaque leaf);
* a MySQL `AVG` over a non-empty group of unsigned integers is carried as the
  exact fraction (numerator sum, group size); JavaScript
  `Math.round(x) = ⌊x + 1/2⌋` applied to it is `mathRound`;
* each `await pool.execute`/`connection.query` that can throw is modelled as
  an `Except Unit` input; the surrounding `try`/`catch` is the `match` on the
  threaded `Except` computation; the collector's transaction is a list of
  primitive store writes that is either committed as a whole (`commit`) or
  discarded as a whole (`rollback`, modelling the `catch` branch);
* wall-clock display strings (`toISOString`, `getTimeSinceUpdate`,
  `getPokemonName`, `TEAM_NAMES`) are carried as their underlying numeric
  data (millisecond timestamps) or omitted where they are pure display
  decoration with no data content.
-/

/-- One row of the `gym_history` table (`scripts/gym_history_schema.sql`):
`(timestamp, team_mystic, team_valor, team_instinct, total_gyms)`, all
unsigned integers.  The auto-increment `id` carries no information used by
either subsystem and is omitted. -/
structure HistorySample where
  timestamp : Nat
  team_mystic : Nat
  team_valor : Nat
  team_instinct : Nat
  total_gyms : Nat
deriving DecidableEq, Repr

/-- One row of the `gym_team_changes` table:
`(gym_id, old_team_id, new_team_id, changed_at)`.  `old_team_id` and
`new_team_id` are nullable (`none` models SQL `NULL`); `some 0` is the
distinct stored value `0`. -/
structure ChangeEvent where
  gym_id : String
  old_team_id : Option Nat
  new_team_id : Option Nat
  changed_at : Nat
deriving DecidableEq, Repr

/-- The persistent store: the two tables owned by this system.  The external
`gym` table is passed separately as a `List GymRecord`. -/
structure Store where
  history : List HistorySample
  changes : List ChangeEvent
deriving DecidableEq, Repr

/-- One defender entry of a facility's decoded `defenders` JSON payload.
`pokemon_id = 0` encodes the JavaScript-falsy case (`0` or absent), which
the aggregation skips; `form`/`costume` may be absent (`none`), and the key
building uses `form || 0` / `costume || 0`; `cp_when_deployed` is carried
after `toNumber` (fallback 0). -/
structure Defender where
  pokemon_id : Nat
  form : Option Nat
  costume : Option Nat
  cp_when_deployed : Nat
deriving DecidableEq, Repr

/-- Outcome of `JSON.parse` on a stored `defenders` column value:
the text may fail to parse (`invalid`), parse to a non-array value
(`nonArray`), or parse to an array of defender records. -/
inductive RawPayload where
  | invalid
  | nonArray
  | defenderList (l : List Defender)
deriving DecidableEq, Repr

/-- One row of the external `gym` table as the three queries read it, plus
the region-membership oracle `inRegion` (the `ST_CONTAINS` predicate over
the configured geofence, opaque to this core).  `availble_slots` mirrors the
misspelled legacy column read alongside `available_slots`. -/
structure GymRecord where
  id : String
  name : String
  team_id : Option Nat
  lat : Int
  lon : Int
  url : String
  description : Option String
  available_slots : Option Nat
  availble_slots : Option Nat
  guarding_pokemon_id : Option Nat
  updated : Nat
  defenders : Option RawPayload
  total_cp : Option Int
  enabled : Bool
  inRegion : Bool
deriving DecidableEq, Repr

/-- `Math.round` of the exact non-negative fraction `num / den`:
`Math.round x = ⌊x + 1/2⌋`, and for `den > 0`,
`⌊num/den + 1/2⌋ = (2*num + den) / (2*den)` in integer division. -/
def mathRound (num den : Nat) : Nat := (2 * num + den) / (2 * den)

/-- Insert `a` before the first element `b` of `l` with `le a b`. -/
def insertBy (le : α → α → Bool) (a : α) : List α → List α
  | [] => [a]
  | b :: l => if le a b then a :: b :: l else b :: insertBy le a l

/-- Stable insertion sort by a boolean comparator (`le a b` meaning "a may
come before b").  Models SQL `ORDER BY` and JavaScript `Array.sort`, both
of which we rely on only up to the comparator and stability. -/
def sortBy (le : α → α → Bool) : List α → List α
  | [] => []
  | a :: l => insertBy le a (sortBy le l)

/-! ## Collector (`scripts/collectGymHistory.js`) -/

/-- The collector's facility query: `WHERE enabled = 1 AND ST_CONTAINS(...)`
over the `gym` table (both the count query and the diff query of
`trackTeamChanges` use exactly this predicate). -/
def collectorGyms (table : List GymRecord) : List GymRecord :=
  table.filter (fun g => g.enabled && g.inRegion)

/-- `SUM(CASE WHEN team_id = t THEN 1 ELSE 0 END)` over the collector's
facility query (a SQL `NULL` `team_id` matches no faction). -/
def teamCount (gyms : List GymRecord) (t : Nat) : Nat :=
  (gyms.filter (fun g => decide (g.team_id = some t))).length

/-- The one `gym_history` row the collector appends:
current wall-clock time plus the three faction counts and the total row
count of the facility query. -/
def historySampleOf (table : List GymRecord) (now : Nat) : HistorySample :=
  { timestamp := now
    team_mystic := teamCount (collectorGyms table) 1
    team_valor := teamCount (collectorGyms table) 2
    team_instinct := teamCount (collectorGyms table) 3
    total_gyms := (collectorGyms table).length }

/-- The `gym_team_changes` row with the greatest `changed_at` for a given
facility, scanning in table order (on a `changed_at` tie the later row in
scan order wins, matching the last `Map.set` of the correlated-subquery
result in `trackTeamChanges`). -/
def latestEventFor (changes : List ChangeEvent) (gid : String) : Option ChangeEvent :=
  (changes.filter (fun e => decide (e.gym_id = gid))).foldl
    (fun acc e =>
      match acc with
      | none => some e
      | some b => if b.changed_at ≤ e.changed_at then some e else acc)
    none

/-- The collector's `lastStateMap`: for each facility the `new_team_id` of
its most recent `gym_team_changes` row, or `none` when the facility has no
row at all (the JavaScript `undefined` case). -/
def lastOwner (changes : List ChangeEvent) (gid : String) : Option (Option Nat) :=
  (latestEventFor changes gid).map (fun e => e.new_team_id)

/-- Point update of the in-memory `lastStateMap` (`lastStateMap.set`). -/
def updateMap (m : String → Option (Option Nat)) (gid : String) (v : Option Nat) :
    String → Option (Option Nat) :=
  fun x => if x = gid then some v else m x

/-- The diff loop of `trackTeamChanges`: walk the current facility rows; a
facility absent from the map gets a first-observation insert
`(gym_id, NULL, currentTeam, now)`; a facility whose mapped team differs
from its current team gets a flip insert `(gym_id, lastTeam, currentTeam,
now)`; otherwise nothing.  Returns the inserted rows in insertion order. -/
def trackAux (now : Nat) (m : String → Option (Option Nat)) :
    List GymRecord → List ChangeEvent
  | [] => []
  | g :: rest =>
    match m g.id with
    | none =>
      ⟨g.id, none, g.team_id, now⟩ :: trackAux now (updateMap m g.id g.team_id) rest
    | some last =>
      if last = g.team_id then trackAux now m rest
      else ⟨g.id, last, g.team_id, now⟩ ::
        trackAux now (updateMap m g.id g.team_id) rest

/-- `trackTeamChanges`: the rows inserted into `gym_team_changes` by one
collector invocation, given the pre-invocation table contents (both reads of
the function — current facilities and last-known states — happen before any
of its writes). -/
def trackTeamChanges (changes : List ChangeEvent) (table : List GymRecord)
    (now : Nat) : List ChangeEvent :=
  trackAux now (fun gid => lastOwner changes gid) (collectorGyms table)

/-- `DELETE FROM gym_history WHERE timestamp < UNIX_TIMESTAMP() - retention`
(truncated `Nat` subtraction agrees with the SQL comparison because the
column is unsigned). -/
def pruneHistory (hist : List HistorySample) (now ret : Nat) : List HistorySample :=
  hist.filter (fun h => !(decide (h.timestamp < now - ret)))

/-- `DELETE FROM gym_team_changes WHERE changed_at < UNIX_TIMESTAMP() - retention`. -/
def pruneChanges (changes : List ChangeEvent) (now ret : Nat) : List ChangeEvent :=
  changes.filter (fun e => !(decide (e.changed_at < now - ret)))

/-- A primitive store write issued inside the collector's transaction. -/
inductive StoreOp where
  | insertHistory (h : HistorySample)
  | insertChange (e : ChangeEvent)
  | deleteOldHistory (now ret : Nat)
  | deleteOldChanges (now ret : Nat)
deriving DecidableEq, Repr

/-- Effect of one primitive write on the store. -/
def applyOp (s : Store) : StoreOp → Store
  | .insertHistory h => ⟨s.history ++ [h], s.changes⟩
  | .insertChange e => ⟨s.history, s.changes ++ [e]⟩
  | .deleteOldHistory now ret => ⟨pruneHistory s.history now ret, s.changes⟩
  | .deleteOldChanges now ret => ⟨s.history, pruneChanges s.changes now ret⟩

/-- The write sequence of one `collectGymHistory` invocation, in program
order: the `gym_history` insert, the `gym_team_changes` inserts of the diff
step, then the two retention deletes.  All reads feeding these writes see
the pre-invocation store. -/
def collectorOps (store : Store) (table : List GymRecord) (now ret : Nat) :
    List StoreOp :=
  StoreOp.insertHistory (historySampleOf table now)
    :: ((trackTeamChanges store.changes table now).map StoreOp.insertChange
      ++ [StoreOp.deleteOldHistory now ret, StoreOp.deleteOldChanges now ret])

/-- A committed (successful) `collectGymHistory` invocation: every write of
the transaction applied to the store.  The design document calls this
operation `collectSnapshot()`. -/
def collectGymHistory (store : Store) (table : List GymRecord) (now ret : Nat) :
    Store :=
  (collectorOps store table now ret).foldl applyOp store

/-- One scheduled collector invocation with its transactional envelope.
`failAt = none` is the success path (`COMMIT`, `process.exit(0)`);
`failAt = some k` models a thrown error at the k-th statement: the `catch`
branch issues `ROLLBACK`, which discards every uncommitted write of the
transaction, re-throws, and the process exits with code 1.  Returns the
store visible after the invocation and the process exit code. -/
def collectorRun (store : Store) (table : List GymRecord) (now ret : Nat)
    (failAt : Option Nat) : Store × Nat :=
  match failAt with
  | none => (collectGymHistory store table now ret, 0)
  | some _ => (store, 1)

/-! ## Query layer: `fetchGymHistory` -/

/-- `PERIOD_CONFIG` keys; an unrecognized period string falls back to
`"24h"`. -/
def normalizePeriod (p : String) : String :=
  if p = "6h" || p = "12h" || p = "24h" || p = "48h" || p = "7d" then p else "24h"

/-- `PERIOD_CONFIG`: period key to `(duration, bucket)` in seconds. -/
def periodConfig (p : String) : Nat × Nat :=
  if p = "6h" then (21600, 300)
  else if p = "12h" then (43200, 300)
  else if p = "24h" then (86400, 300)
  else if p = "48h" then (172800, 900)
  else (604800, 3600)

/-- The `duration` a requested period string resolves to. -/
def periodDuration (p : String) : Nat := (periodConfig (normalizePeriod p)).1

/-- The `bucket` width a requested period string resolves to. -/
def periodBucket (p : String) : Nat := (periodConfig (normalizePeriod p)).2

/-- One row of the bucketed history query.  The SQL `AVG` columns are
carried exactly: `mysticSum / sampleCount` is the value of
`AVG(team_mystic)` for the group, and so on; `sampleCount` is the group
size (always positive for a produced row). -/
structure HistoryRow where
  bucket : Nat
  mysticSum : Nat
  valorSum : Nat
  instinctSum : Nat
  totalSum : Nat
  sampleCount : Nat
deriving DecidableEq, Repr

/-- `WHERE timestamp >= UNIX_TIMESTAMP() - duration` over `gym_history`. -/
def windowSamples (now dur : Nat) (hist : List HistorySample) : List HistorySample :=
  hist.filter (fun s => decide (now - dur ≤ s.timestamp))

/-- `FLOOR(timestamp / bucket) * bucket`. -/
def bucketStart (bsz ts : Nat) : Nat := ts / bsz * bsz

/-- The distinct bucket values of the in-window samples, ascending
(`GROUP BY bucket ORDER BY bucket ASC`). -/
def bucketKeys (now dur bsz : Nat) (hist : List HistorySample) : List Nat :=
  sortBy (fun a b => decide (a ≤ b))
    (((windowSamples now dur hist).map (fun s => bucketStart bsz s.timestamp)).dedup)

/-- The in-window samples of one bucket group. -/
def bucketSamples (now dur bsz b : Nat) (hist : List HistorySample) :
    List HistorySample :=
  (windowSamples now dur hist).filter (fun s => decide (bucketStart bsz s.timestamp = b))

/-- The aggregate row of one bucket group. -/
def rowOfBucket (now dur bsz b : Nat) (hist : List HistorySample) : HistoryRow :=
  { bucket := b
    mysticSum := ((bucketSamples now dur bsz b hist).map (fun s => s.team_mystic)).sum
    valorSum := ((bucketSamples now dur bsz b hist).map (fun s => s.team_valor)).sum
    instinctSum := ((bucketSamples now dur bsz b hist).map (fun s => s.team_instinct)).sum
    totalSum := ((bucketSamples now dur bsz b hist).map (fun s => s.total_gyms)).sum
    sampleCount := (bucketSamples now dur bsz b hist).length }

/-- Result of the bucketed history query: one aggregate row per populated
bucket, ascending by bucket. -/
def historyQueryRows (now dur bsz : Nat) (hist : List HistorySample) :
    List HistoryRow :=
  (bucketKeys now dur bsz hist).map (fun b => rowOfBucket now dur bsz b hist)

/-- One point of the `chartData` series. -/
structure ChartDataPoint where
  time : Nat
  mystic : Nat
  valor : Nat
  instinct : Nat
  total : Nat
deriving DecidableEq, Repr

/-- `buildChartData`: round each average, re-derive the total as the max of
the recorded (rounded) total and the sum of the three rounded faction
averages, and report the bucket start in milliseconds. -/
def buildChartData (rows : List HistoryRow) : List ChartDataPoint :=
  rows.map (fun row =>
    let mystic := mathRound row.mysticSum row.sampleCount
    let valor := mathRound row.valorSum row.sampleCount
    let instinct := mathRound row.instinctSum row.sampleCount
    let recordedTotal := mathRound row.totalSum row.sampleCount
    let controlledSum := mystic + valor + instinct
    { time := row.bucket * 1000
      mystic := mystic
      valor := valor
      instinct := instinct
      total := max recordedTotal controlledSum })

/-- `ORDER BY timestamp DESC LIMIT 1` over the whole `gym_history` table
(no period filter); on a timestamp tie the earlier row in scan order is
kept. -/
def latestSample (hist : List HistorySample) : Option HistorySample :=
  hist.foldl
    (fun acc s =>
      match acc with
      | none => some s
      | some b => if b.timestamp < s.timestamp then some s else acc)
    none

/-- The `currentCounts` field of the response. -/
structure CurrentCounts where
  mystic : Nat
  valor : Nat
  instinct : Nat
  total : Nat
deriving DecidableEq, Repr

/-- `currentCounts` from the latest `gym_history` row: the stored faction
counts (integers, on which the source's `Math.round` is the identity) with
the total re-derived as `max(recordedTotal, mystic + valor + instinct)`;
all zero when the table is empty. -/
def currentCountsOf (hist : List HistorySample) : CurrentCounts :=
  match latestSample hist with
  | some l =>
    { mystic := l.team_mystic
      valor := l.team_valor
      instinct := l.team_instinct
      total := max l.total_gyms (l.team_mystic + l.team_valor + l.team_instinct) }
  | none => ⟨0, 0, 0, 0⟩

/-- `lastUpdated` as a millisecond timestamp (the source renders
`new Date(ms).toISOString()`; the epoch case is `new Date(0)`, i.e. 0). -/
def lastUpdatedMsOf (hist : List HistorySample) : Nat :=
  match latestSample hist with
  | some l => l.timestamp * 1000
  | none => 0

/-- One row of the contested-facility ranking query. -/
structure ContestedRow where
  gym_id : String
  name : String
  lat : Int
  lon : Int
  url : String
  current_team : Option Nat
  change_count : Nat
  last_changed : Nat
deriving DecidableEq, Repr

/-- `WHERE changed_at >= UNIX_TIMESTAMP() - duration` over `gym_team_changes`. -/
def eventsInWindow (changes : List ChangeEvent) (now dur : Nat) : List ChangeEvent :=
  changes.filter (fun e => decide (now - dur ≤ e.changed_at))

/-- `MAX(changed_at)` of a group. -/
def maxChangedAt (l : List ChangeEvent) : Nat :=
  (l.map (fun e => e.changed_at)).foldl max 0

/-- The comparator of `ORDER BY change_count DESC, last_changed DESC`. -/
def contestedLE (a b : ContestedRow) : Bool :=
  decide (b.change_count < a.change_count) ||
    (decide (a.change_count = b.change_count) && decide (b.last_changed ≤ a.last_changed))

/-- The contested ranking query: join the in-window change events with the
in-region `gym` rows, group per facility (`COUNT(id)`, `MAX(changed_at)`),
order by `(change_count DESC, last_changed DESC)`, `LIMIT 20`. -/
def contestedQueryRows (changes : List ChangeEvent) (table : List GymRecord)
    (now dur : Nat) : List ContestedRow :=
  (sortBy contestedLE
    ((table.filter (fun g => g.inRegion)).filterMap (fun g =>
      let evs := (eventsInWindow changes now dur).filter
        (fun e => decide (e.gym_id = g.id))
      if evs.isEmpty then none
      else some
        { gym_id := g.id, name := g.name, lat := g.lat, lon := g.lon
          url := g.url, current_team := g.team_id
          change_count := evs.length, last_changed := maxChangedAt evs }))).take 20

/-- The recent-changes query for the ranked facilities: every
`gym_team_changes` row whose `gym_id` is among the ranked ids (no window
filter), ordered by `changed_at DESC`. -/
def recentQueryRows (changes : List ChangeEvent) (ids : List String) :
    List ChangeEvent :=
  sortBy (fun a b => decide (b.changed_at ≤ a.changed_at))
    (changes.filter (fun e => decide (e.gym_id ∈ ids)))

/-- One entry of a facility's `recent_changes` feed (the source field names
are `from`, `to`, `timestamp`; `from` is renamed because it is a Lean
keyword, and the timestamp is in milliseconds). -/
structure ContestedGymChange where
  fromTeam : Option Nat
  toTeam : Option Nat
  timestampMs : Nat
deriving DecidableEq, Repr

/-- `normalizeTeamId`: `NULL`, absent and `0` all collapse to the single
no-owner sentinel `none`. -/
def normalizeTeamId (t : Option Nat) : Option Nat :=
  match t with
  | none => none
  | some 0 => none
  | some n => some n

/-- `mapRecentChanges`: walk the `changed_at DESC` rows; drop rows whose
normalized old and new owner coincide; group the rest per facility,
keeping at most the first 5 per facility. -/
def mapRecentChanges (rows : List ChangeEvent) : String → List ContestedGymChange :=
  rows.foldl
    (fun m row =>
      let fromTeam := normalizeTeamId row.old_team_id
      let toTeam := normalizeTeamId row.new_team_id
      if fromTeam = toTeam then m
      else fun x =>
        if x = row.gym_id then
          if (m row.gym_id).length < 5 then
            m row.gym_id ++ [⟨fromTeam, toTeam, row.changed_at * 1000⟩]
          else m row.gym_id
        else m x)
    (fun _ => [])

/-- One entry of the `contestedGyms` response field. -/
structure ContestedGym where
  gym_id : String
  name : String
  lat : Int
  lon : Int
  url : String
  current_team : Nat
  change_count : Nat
  last_changed : Nat
  recent_changes : List ContestedGymChange
deriving DecidableEq, Repr

/-- The `fetchGymHistory` response (`lastUpdated` as milliseconds). -/
structure GymHistoryResponse where
  period : String
  chartData : List ChartDataPoint
  contestedGyms : List ContestedGym
  currentCounts : CurrentCounts
  lastUpdatedMs : Nat
deriving DecidableEq, Repr

/-- The empty/zero response shape returned on any failure. -/
def emptyHistoryResponse (key : String) : GymHistoryResponse :=
  { period := key, chartData := [], contestedGyms := [],
    currentCounts := ⟨0, 0, 0, 0⟩, lastUpdatedMs := 0 }

/-- `fetchGymHistory` with each of its four store reads passed as an
`Except` (a thrown query error is `.error ()`); the recent-changes query is
a function of the ranked facility ids and is only consulted when at least
one facility was ranked.  The enclosing `try`/`catch` is the final `match`:
any read error yields the empty shape. -/
def fetchGymHistory (period : String)
    (qHistory : Except Unit (List HistoryRow))
    (qLatest : Except Unit (Option HistorySample))
    (qContested : Except Unit (List ContestedRow))
    (qRecent : List String → Except Unit (List ChangeEvent)) :
    GymHistoryResponse :=
  let key := normalizePeriod period
  match qHistory with
  | .error _ => emptyHistoryResponse key
  | .ok historyRows =>
    let chartData := buildChartData historyRows
    match qLatest with
    | .error _ => emptyHistoryResponse key
    | .ok latest =>
      let currentCounts :=
        match latest with
        | some l =>
          ({ mystic := l.team_mystic, valor := l.team_valor,
             instinct := l.team_instinct,
             total := max l.total_gyms
               (l.team_mystic + l.team_valor + l.team_instinct) } : CurrentCounts)
        | none => ⟨0, 0, 0, 0⟩
      let lastUpdatedMs :=
        match latest with
        | some l => l.timestamp * 1000
        | none => 0
      match qContested with
      | .error _ => emptyHistoryResponse key
      | .ok contestedRows =>
        let gymIds := contestedRows.map (fun r => r.gym_id)
        match (if gymIds.isEmpty then Except.ok [] else qRecent gymIds) with
        | .error _ => emptyHistoryResponse key
        | .ok recentRows =>
          let recentMap := mapRecentChanges recentRows
          let contested := contestedRows.map (fun r =>
            ({ gym_id := r.gym_id, name := r.name, lat := r.lat, lon := r.lon
               url := r.url, current_team := r.current_team.getD 0
               change_count := r.change_count, last_changed := r.last_changed * 1000
               recent_changes := recentMap r.gym_id } : ContestedGym))
          { period := key, chartData := chartData, contestedGyms := contested,
            currentCounts := currentCounts, lastUpdatedMs := lastUpdatedMs }

/-- `fetchGymHistory` on the success path: every store read answered from
the current store and `gym` table. -/
def fetchGymHistoryOk (period : String) (store : Store) (table : List GymRecord)
    (now : Nat) : GymHistoryResponse :=
  let key := normalizePeriod period
  let cfg := periodConfig key
  fetchGymHistory period
    (.ok (historyQueryRows now cfg.1 cfg.2 store.history))
    (.ok (latestSample store.history))
    (.ok (contestedQueryRows store.changes table now cfg.1))
    (fun ids => .ok (recentQueryRows store.changes ids))

/-! ## Query layer: `fetchGymSnapshot` and `fetchDefenderStats` -/

/-- The decoded `defenders` value a snapshot `Gym` ends up holding:
a defender list, or the unchecked non-array value that
`defenders = JSON.parse(...)` passes through when the payload parses to a
non-array. -/
inductive DefendersValue where
  | list (l : List Defender)
  | raw
deriving DecidableEq, Repr

/-- One `Gym` of the snapshot response (the `last_updated` display string,
a wall-clock rendering of `updated`, is omitted). -/
structure Gym where
  id : String
  name : String
  team_id : Option Nat
  lat : Int
  lon : Int
  url : String
  description : Option String
  slots : Option Nat
  guarding_pokemon_id : Option Nat
  updated : Nat
  defenders : DefendersValue
  total_cp : Option Int
deriving DecidableEq, Repr

/-- `counts` of the snapshot response. -/
structure GymCounts where
  mystic : Nat
  valor : Nat
  instinct : Nat
deriving DecidableEq, Repr

/-- The `fetchGymSnapshot` response. -/
structure GymApiResult where
  mystic : List Gym
  valor : List Gym
  instinct : List Gym
  counts : GymCounts
deriving DecidableEq, Repr

/-- `DEFAULT_GYM_RESULT`. -/
def defaultGymResult : GymApiResult :=
  { mystic := [], valor := [], instinct := [], counts := ⟨0, 0, 0⟩ }

/-- The snapshot query: `updated > UNIX_TIMESTAMP() - timeWindow AND
enabled = 1 AND ST_CONTAINS(...) ORDER BY updated DESC`. -/
def snapshotQuery (table : List GymRecord) (now tw : Nat) : List GymRecord :=
  sortBy (fun a b => decide (b.updated ≤ a.updated))
    (table.filter (fun g => decide (now - tw < g.updated) && g.enabled && g.inRegion))

/-- Whether decoding a row's `defenders` column logs the snapshot's
parse-failure warning (only `JSON.parse` throwing is caught there). -/
def snapshotWarn (p : Option RawPayload) : Nat :=
  if p = some RawPayload.invalid then 1 else 0

/-- The `defenders` value a snapshot row yields: `NULL` column and parse
failure both give the empty list (the latter after a warning); a parsed
array is taken as-is; a parsed non-array is passed through unchecked. -/
def defendersValueOf (p : Option RawPayload) : DefendersValue :=
  match p with
  | none => .list []
  | some .invalid => .list []
  | some .nonArray => .raw
  | some (.defenderList l) => .list l

/-- The `Gym` built from one snapshot query row
(`slots = available_slots ?? availble_slots ?? null`). -/
def gymOfRow (r : GymRecord) : Gym :=
  { id := r.id, name := r.name, team_id := r.team_id, lat := r.lat
    lon := r.lon, url := r.url, description := r.description
    slots := (r.available_slots.orElse (fun _ => r.availble_slots))
    guarding_pokemon_id := r.guarding_pokemon_id, updated := r.updated
    defenders := defendersValueOf r.defenders, total_cp := r.total_cp }

/-- The per-row step of `fetchGymSnapshot`'s loop: decode the payload
(counting the parse-failure warning), then push the gym and bump the
matching faction counter for `team_id` 1/2/3; any other `team_id` is
dropped. -/
def snapStep (acc : GymApiResult × Nat) (r : GymRecord) : GymApiResult × Nat :=
  let res := acc.1
  let w := acc.2 + snapshotWarn r.defenders
  let gym := gymOfRow r
  if r.team_id = some 1 then
    ({ res with
        mystic := res.mystic ++ [gym]
        counts := { res.counts with mystic := res.counts.mystic + 1 } }, w)
  else if r.team_id = some 2 then
    ({ res with
        valor := res.valor ++ [gym]
        counts := { res.counts with valor := res.counts.valor + 1 } }, w)
  else if r.team_id = some 3 then
    ({ res with
        instinct := res.instinct ++ [gym]
        counts := { res.counts with instinct := res.counts.instinct + 1 } }, w)
  else (res, w)

/-- `fetchGymSnapshot` given its one store read; a query error yields
`DEFAULT_GYM_RESULT`.  The second component counts the warnings logged. -/
def fetchGymSnapshot (q : Except Unit (List GymRecord)) : GymApiResult × Nat :=
  match q with
  | .error _ => (defaultGymResult, 0)
  | .ok rows => rows.foldl snapStep (defaultGymResult, 0)

/-- `fetchGymSnapshot` on the success path. -/
def fetchGymSnapshotOk (table : List GymRecord) (now tw : Nat) : GymApiResult × Nat :=
  fetchGymSnapshot (.ok (snapshotQuery table now tw))

/-- Per-species aggregate of `fetchDefenderStats` (the display `name`
resolved via `getPokemonName` is omitted). -/
structure DefenderStats where
  pokemon_id : Nat
  form : Option Nat
  count : Nat
  total_cp : Nat
  avg_cp : Nat
deriving DecidableEq, Repr

/-- One faction's running aggregation: the per-key species map as an
insertion-ordered association list (mirroring JavaScript `Map` iteration
order), plus the running totals. -/
structure TeamAggregation where
  defenders : List ((Nat × Nat × Nat) × DefenderStats)
  totalDefenders : Nat
  totalCp : Nat
deriving DecidableEq, Repr

/-- The three factions' aggregations. -/
structure AggState where
  t1 : TeamAggregation
  t2 : TeamAggregation
  t3 : TeamAggregation
deriving DecidableEq, Repr

/-- The key `pokemonId_form_costume` with `form || 0` and `costume || 0`
(distinct numeric triples give distinct template strings, so the triple
itself serves as the key). -/
def defenderKey (d : Defender) : Nat × Nat × Nat :=
  (d.pokemon_id, d.form.getD 0, d.costume.getD 0)

/-- Association-list point update preserving insertion order. -/
def updateEntry (l : List ((Nat × Nat × Nat) × DefenderStats))
    (k : Nat × Nat × Nat) (f : DefenderStats → DefenderStats) :
    List ((Nat × Nat × Nat) × DefenderStats) :=
  l.map (fun kv => if kv.1 = k then (kv.1, f kv.2) else kv)

/-- Fold one defender entry into a faction aggregation: skip falsy
`pokemon_id`; otherwise bump (or create) the species entry, recompute its
`avg_cp = Math.round(total_cp / max(count, 1))`, and bump the faction
totals. -/
def addDefender (agg : TeamAggregation) (d : Defender) : TeamAggregation :=
  if d.pokemon_id = 0 then agg
  else
    let k := defenderKey d
    let cp := d.cp_when_deployed
    let defenders :=
      if (agg.defenders.filter (fun kv => decide (kv.1 = k))).isEmpty then
        agg.defenders ++
          [(k, { pokemon_id := d.pokemon_id, form := d.form, count := 1
                 total_cp := cp, avg_cp := cp })]
      else
        updateEntry agg.defenders k (fun s =>
          { s with
            count := s.count + 1
            total_cp := s.total_cp + cp
            avg_cp := mathRound (s.total_cp + cp) (max (s.count + 1) 1) })
    { defenders := defenders, totalDefenders := agg.totalDefenders + 1
      totalCp := agg.totalCp + cp }

/-- Fold one stats query row: a `NULL` payload is skipped silently; a
payload that fails to parse or parses to a non-array is skipped with a
warning; a defender list is folded into the row's faction (rows with a
`team_id` outside 1..3 cannot reach this fold — the query filters them —
and are skipped). -/
def statsStep (acc : AggState × Nat) (r : GymRecord) : AggState × Nat :=
  match r.defenders with
  | none => acc
  | some .invalid => (acc.1, acc.2 + 1)
  | some .nonArray => (acc.1, acc.2 + 1)
  | some (.defenderList l) =>
    if r.team_id = some 1 then ({ acc.1 with t1 := l.foldl addDefender acc.1.t1 }, acc.2)
    else if r.team_id = some 2 then ({ acc.1 with t2 := l.foldl addDefender acc.1.t2 }, acc.2)
    else if r.team_id = some 3 then ({ acc.1 with t3 := l.foldl addDefender acc.1.t3 }, acc.2)
    else acc

/-- One faction's block of the stats response (the display `team_name` is
omitted). -/
structure TeamStats where
  team_id : Nat
  total_defenders : Nat
  unique_species : Nat
  top_defenders : List DefenderStats
  total_cp : Nat
  avg_cp_per_defender : Nat
deriving DecidableEq, Repr

/-- The `fetchDefenderStats` response (the wall-clock `timestamp` display
string is omitted). -/
structure StatsData where
  teams : List TeamStats
  total_defenders_all_teams : Nat
deriving DecidableEq, Repr

/-- Build one faction's response block: species sorted by count descending
(stable, as JavaScript `Array.sort` is), top 10 kept. -/
def mkTeamStats (tid : Nat) (agg : TeamAggregation) : TeamStats :=
  let defenders := sortBy (fun a b => decide (b.count ≤ a.count))
    (agg.defenders.map (fun kv => kv.2))
  { team_id := tid
    total_defenders := agg.totalDefenders
    unique_species := defenders.length
    top_defenders := defenders.take 10
    total_cp := agg.totalCp
    avg_cp_per_defender :=
      if agg.totalDefenders = 0 then 0
      else mathRound agg.totalCp agg.totalDefenders }

/-- `DEFAULT_STATS`. -/
def defaultStats : StatsData :=
  { teams := [], total_defenders_all_teams := 0 }

/-- The stats query: `enabled = 1 AND team_id IN (1, 2, 3) AND
ST_CONTAINS(...)` (no ordering clause). -/
def statsQuery (table : List GymRecord) : List GymRecord :=
  table.filter (fun g =>
    g.enabled && g.inRegion &&
      (decide (g.team_id = some 1) || decide (g.team_id = some 2) ||
        decide (g.team_id = some 3)))

/-- `fetchDefenderStats` given its one store read; a query error yields
`DEFAULT_STATS`.  The second component counts the warnings logged. -/
def fetchDefenderStats (q : Except Unit (List GymRecord)) : StatsData × Nat :=
  match q with
  | .error _ => (defaultStats, 0)
  | .ok rows =>
    let folded := rows.foldl statsStep (⟨⟨[], 0, 0⟩, ⟨[], 0, 0⟩, ⟨[], 0, 0⟩⟩, 0)
    let teams := [mkTeamStats 1 folded.1.t1, mkTeamStats 2 folded.1.t2,
      mkTeamStats 3 folded.1.t3]
    ({ teams := teams
       total_defenders_all_teams :=
         (teams.map (fun t => t.total_defenders)).sum }, folded.2)

/-- `fetchDefenderStats` on the success path. -/
def fetchDefenderStatsOk (table : List GymRecord) : StatsData × Nat :=
  fetchDefenderStats (.ok (statsQuery table))

/-- A stored payload the stats fold treats as malformed (parse failure or
non-array parse). -/
def isMalformedPayload (p : Option RawPayload) : Bool :=
  match p with
  | some .invalid => true
  | some .nonArray => true
  | _ => false

/-! ## Concrete records used by the witness theorems -/

/-- A minimal enabled in-region facility row. -/
def demoGym (gid : String) (team : Option Nat) : GymRecord :=
  { id := gid, name := gid, team_id := team, lat := 0, lon := 0, url := ""
    description := none, available_slots := none, availble_slots := none
    guarding_pokemon_id := none, updated := 100, defenders := none
    total_cp := none, enabled := true, inRegion := true }

/-- Facility "a" currently owned by faction 2, facility "b" never seen. -/
def demoTable : List GymRecord := [demoGym "a" (some 2), demoGym "b" (some 1)]

/-- A store in which facility "a" was last known to be owned by faction 1. -/
def demoStore : Store :=
  ⟨[⟨50, 1, 0, 0, 2⟩], [⟨"a", none, some 1, 40⟩]⟩

/-- A store with two history samples in the same 300-second bucket and two
change events for the same facility. -/
def demoStore2 : Store :=
  ⟨[⟨600, 1, 2, 3, 10⟩, ⟨700, 2, 2, 3, 10⟩, ⟨100, 5, 5, 5, 20⟩],
   [⟨"a", none, some 1, 500⟩, ⟨"a", some 1, some 2, 600⟩]⟩

/-- The single-facility table of the first-observation counterexample. -/
def c2Table : List GymRecord := [demoGym "g" (some 1)]

/-- First collector run of the counterexample: time 100, retention 10. -/
def c2Store1 : Store := collectGymHistory ⟨[], []⟩ c2Table 100 10

/-- Second collector run of the counterexample: time 111, unchanged owner;
the retention sweep deletes the facility's only change event (aged 11 > 10). -/
def c2Store2 : Store := collectGymHistory c2Store1 c2Table 111 10

/-- An enabled in-region facility whose stored defender payload parses to a
non-array value. -/
def c9Gym : GymRecord :=
  { demoGym "h" (some 1) with defenders := some RawPayload.nonArray }

/-! # Helper lemmas -/

/-- `mathRound num den` is the half-up nearest integer to `num / den`:
it is the unique `q` with `q - 1/2 ≤ num/den < q + 1/2`, cleared of
denominators. -/
theorem mathRound_spec (num den : Nat) (hden : 0 < den) :
    2 * den * mathRound num den ≤ 2 * num + den ∧
      2 * num + den < 2 * den * mathRound num den + 2 * den := by
  unfold mathRound
  have h2 : 0 < 2 * den := by omega
  have hmod := Nat.div_add_mod (2 * num + den) (2 * den)
  have hlt : (2 * num + den) % (2 * den) < 2 * den := Nat.mod_lt _ h2
  omega

/-- Inserting is a permutation of consing. -/
theorem insertBy_perm (le : α → α → Bool) (a : α) :
    ∀ l : List α, List.Perm (insertBy le a l) (a :: l)
  | [] => List.Perm.refl _
  | b :: l => by
    unfold insertBy
    by_cases h : le a b = true
    · rw [if_pos h]
    · rw [if_neg h]
      exact ((insertBy_perm le a l).cons b).trans (List.Perm.swap a b l)

/-- Sorting is a permutation. -/
theorem sortBy_perm (le : α → α → Bool) : ∀ l : List α, List.Perm (sortBy le l) l
  | [] => List.Perm.refl _
  | a :: l =>
    (insertBy_perm le a (sortBy le l)).trans ((sortBy_perm le l).cons a)

/-- Inserting into a comparator-sorted list keeps it sorted, given a
transitive and total comparator. -/
theorem insertBy_pairwise {le : α → α → Bool}
    (htrans : ∀ a b c, le a b = true → le b c = true → le a c = true)
    (htot : ∀ a b, le a b = true ∨ le b a = true) (a : α) :
    ∀ {l : List α}, List.Pairwise (fun x y => le x y = true) l →
      List.Pairwise (fun x y => le x y = true) (insertBy le a l)
  | [], _ => by simp [insertBy]
  | b :: l, h => by
    unfold insertBy
    by_cases hab : le a b = true
    · rw [if_pos hab]
      refine List.Pairwise.cons (fun x hx => ?_) h
      rcases List.mem_cons.mp hx with rfl | hxl
      · exact hab
      · exact htrans a b x hab (List.rel_of_pairwise_cons h hxl)
    · rw [if_neg hab]
      have hba : le b a = true := (htot a b).resolve_left hab
      refine List.Pairwise.cons (fun x hx => ?_)
        (insertBy_pairwise htrans htot a (List.Pairwise.of_cons h))
      rcases List.mem_cons.mp ((insertBy_perm le a l).mem_iff.mp hx) with rfl | hxl
      · exact hba
      · exact List.rel_of_pairwise_cons h hxl

/-- `sortBy` sorts, given a transitive and total comparator. -/
theorem sortBy_pairwise {le : α → α → Bool}
    (htrans : ∀ a b c, le a b = true → le b c = true → le a c = true)
    (htot : ∀ a b, le a b = true ∨ le b a = true) :
    ∀ l : List α, List.Pairwise (fun x y => le x y = true) (sortBy le l)
  | [] => List.Pairwise.nil
  | a :: l => insertBy_pairwise htrans htot a (sortBy_pairwise htrans htot l)

/-- The diff step emits nothing for a facility id that does not occur in the
processed rows. -/
theorem trackAux_filter_of_not_mem (now : Nat) (m : String → Option (Option Nat))
    (l : List GymRecord) (gid : String) (h : ∀ g ∈ l, g.id ≠ gid) :
    (trackAux now m l).filter (fun e => decide (e.gym_id = gid)) = [] := by
  induction l generalizing m with
  | nil => rfl
  | cons a rest ih =>
    have ha : a.id ≠ gid := h a (List.mem_cons_self a rest)
    have hrest : ∀ g ∈ rest, g.id ≠ gid := fun g hg => h g (List.mem_cons_of_mem a hg)
    cases hm : m a.id with
    | none =>
      simp only [trackAux, hm, List.filter_cons]
      simp [ha, ih _ hrest]
    | some last =>
      by_cases hl : last = a.team_id
      · simp only [trackAux, hm, hl, if_pos rfl]
        exact ih _ hrest
      · simp only [trackAux, hm, if_neg hl, List.filter_cons]
        simp [ha, ih _ hrest]

/-- Per-facility characterization of the diff step: with distinct row ids,
the events the diff step emits for a row's facility are exactly one
first-observation event when the map has no entry, one flip event when the
mapped team differs from the current team, and nothing otherwise. -/
theorem trackAux_filter_of_mem (now : Nat) (m : String → Option (Option Nat))
    (l : List GymRecord) (g : GymRecord) (hg : g ∈ l)
    (hnodup : (l.map (fun x => x.id)).Nodup) :
    (trackAux now m l).filter (fun e => decide (e.gym_id = g.id)) =
      (match m g.id with
       | none => [⟨g.id, none, g.team_id, now⟩]
       | some last =>
         if last = g.team_id then [] else [⟨g.id, last, g.team_id, now⟩]) := by
  induction l generalizing m with
  | nil => cases hg
  | cons a rest ih =>
    have hmap : (List.map (fun x => x.id) (a :: rest)).Nodup := hnodup
    rw [List.map_cons, List.nodup_cons] at hmap
    have hnd1 : a.id ∉ rest.map (fun x => x.id) := hmap.1
    have hnd2 : (rest.map (fun x => x.id)).Nodup := hmap.2
    rcases List.mem_cons.mp hg with rfl | hgr
    · have hnot : ∀ x ∈ rest, x.id ≠ g.id := by
        intro x hx hEq
        exact hnd1 (hEq ▸ List.mem_map_of_mem (fun y => y.id) hx)
      cases hm : m g.id with
      | none =>
        simp only [trackAux, hm, List.filter_cons]
        simp [trackAux_filter_of_not_mem now _ rest g.id hnot]
      | some last =>
        by_cases hl : last = g.team_id
        · simp only [trackAux, hm, if_pos hl, hl]
          simp [trackAux_filter_of_not_mem now _ rest g.id hnot]
        · simp only [trackAux, hm, if_neg hl, List.filter_cons]
          simp [hl, trackAux_filter_of_not_mem now _ rest g.id hnot]
    · have hane : a.id ≠ g.id := by
        intro hEq
        exact hnd1 (hEq ▸ List.mem_map_of_mem (fun y => y.id) hgr)
      have hm' : updateMap m a.id a.team_id g.id = m g.id := by
        unfold updateMap
        rw [if_neg (fun hEq => hane hEq.symm)]
      cases hm : m a.id with
      | none =>
        simp only [trackAux, hm, List.filter_cons]
        simp only [ih _ hgr hnd2, hm']
        simp [hane]
      | some last =>
        by_cases hl : last = a.team_id
        · simp only [trackAux, hm, if_pos hl]
          exact ih _ hgr hnd2
        · simp only [trackAux, hm, if_neg hl, List.filter_cons]
          simp only [ih _ hgr hnd2, hm']
          simp [hane]

/-- Folding the latest-event pick from a `some` start never yields `none`. -/
theorem latestFold_isSome (xs : List ChangeEvent) (b : ChangeEvent) :
    ∃ c, xs.foldl
      (fun acc e =>
        match acc with
        | none => some e
        | some b => if b.changed_at ≤ e.changed_at then some e else acc)
      (some b) = some c := by
  induction xs generalizing b with
  | nil => exact ⟨b, rfl⟩
  | cons x rest ih =>
    by_cases hx : b.changed_at ≤ x.changed_at
    · simpa [hx] using ih x
    · simpa [hx] using ih b

/-- A facility has `lastOwner = none` exactly when it has no stored change
event. -/
theorem lastOwner_eq_none_iff (changes : List ChangeEvent) (gid : String) :
    lastOwner changes gid = none ↔
      changes.filter (fun e => decide (e.gym_id = gid)) = [] := by
  unfold lastOwner latestEventFor
  cases hf : changes.filter (fun e => decide (e.gym_id = gid)) with
  | nil => simp
  | cons x xs =>
    simp only [List.foldl_cons]
    obtain ⟨c, hc⟩ := latestFold_isSome xs x
    simp [hc]

/-- Appending the diff-step inserts to the store. -/
theorem foldl_insertChange (evs : List ChangeEvent) (s : Store) :
    (evs.map StoreOp.insertChange).foldl applyOp s =
      ⟨s.history, s.changes ++ evs⟩ := by
  induction evs generalizing s with
  | nil => simp
  | cons e rest ih =>
    simp only [List.map_cons, List.foldl_cons, applyOp]
    rw [ih]
    simp

/-- A committed collector invocation, write by write: append the history
sample, append the diff events, then prune both tables. -/
theorem collectGymHistory_eq (store : Store) (table : List GymRecord) (now ret : Nat) :
    collectGymHistory store table now ret =
      ⟨pruneHistory (store.history ++ [historySampleOf table now]) now ret,
       pruneChanges (store.changes ++ trackTeamChanges store.changes table now) now ret⟩ := by
  unfold collectGymHistory collectorOps
  rw [List.foldl_cons, List.foldl_append, foldl_insertChange]
  rfl

/-! # Claim theorems -/

/-- Claim C1: for every collector run and every enabled in-region facility
in the current query result, the diff step appends exactly one ChangeEvent
`(facilityId, NULL, currentOwner, now)` when the facility has no prior
ChangeEvent, exactly one ChangeEvent `(facilityId, lastOwner, currentOwner,
now)` when the last known owner differs from the current owner, and nothing
when the last known owner equals the current owner. -/
theorem collector_diff_step (store : Store) (table : List GymRecord) (now : Nat)
    (g : GymRecord) (hg : g ∈ collectorGyms table)
    (hnodup : ((collectorGyms table).map (fun x => x.id)).Nodup) :
    (lastOwner store.changes g.id = none →
      (trackTeamChanges store.changes table now).filter
          (fun e => decide (e.gym_id = g.id)) =
        [⟨g.id, none, g.team_id, now⟩]) ∧
    (∀ last, lastOwner store.changes g.id = some last → last ≠ g.team_id →
      (trackTeamChanges store.changes table now).filter
          (fun e => decide (e.gym_id = g.id)) =
        [⟨g.id, last, g.team_id, now⟩]) ∧
    (∀ last, lastOwner store.changes g.id = some last → last = g.team_id →
      (trackTeamChanges store.changes table now).filter
          (fun e => decide (e.gym_id = g.id)) = []) := by
  have hmain := trackAux_filter_of_mem now (fun gid => lastOwner store.changes gid)
    (collectorGyms table) g hg hnodup
  simp only [trackTeamChanges]
  refine ⟨fun h0 => ?_, fun last hl hne => ?_, fun last hl heq => ?_⟩
  · rw [hmain]
    simp only [h0]
  · rw [hmain]
    simp only [hl]
    simp [hne]
  · rw [hmain]
    simp only [hl]
    simp [heq]

/-- Witness for C1: at time 200, facility "a" (last known owner faction 1,
current owner faction 2) gets exactly one flip event. -/
theorem collector_diff_step_witness :
    demoGym "a" (some 2) ∈ collectorGyms demoTable ∧
    ((collectorGyms demoTable).map (fun x => x.id)).Nodup ∧
    lastOwner demoStore.changes (demoGym "a" (some 2)).id = some (some 1) ∧
    (trackTeamChanges demoStore.changes demoTable 200).filter
        (fun e => decide (e.gym_id = (demoGym "a" (some 2)).id)) =
      [⟨(demoGym "a" (some 2)).id, some 1, some 2, 200⟩] :=
  ⟨by decide, by decide, by decide,
    (collector_diff_step demoStore demoTable 200 (demoGym "a" (some 2)) (by decide)
        (by decide)).2.1 (some 1) (by decide) (by decide)⟩

/-- Counterexample to C2 as stated: facility "g" receives a first-observation
event (`oldOwner = NULL`) at the run at time 100; the run at time 111 leaves
the owner unchanged but its retention sweep (window 10) deletes that only
event; the run at time 112 then appends a second `oldOwner = NULL`
ChangeEvent for the same facility. -/
theorem first_observation_counterexample :
    trackTeamChanges (Store.mk [] []).changes c2Table 100 =
      [⟨"g", none, some 1, 100⟩] ∧
    c2Store2.changes = [] ∧
    trackTeamChanges c2Store2.changes c2Table 112 =
      [⟨"g", none, some 1, 112⟩] := by decide

/-- Claim C2 (amended): a first-observation ChangeEvent (`oldOwner = NULL`)
is appended by exactly those runs that observe the facility while the store
holds no ChangeEvent for it (even if the current owner is none); while some
ChangeEvent for the facility survives, a run appends a `NULL`-oldOwner event
only in the corner case where the last known owner is itself the stored
`NULL` sentinel and differs from the current owner (a flip reusing
`oldOwner = NULL`); with a non-`NULL` last known owner no run ever appends a
second one. -/
theorem first_observation_emission (store : Store) (table : List GymRecord)
    (now : Nat) (g : GymRecord) (hg : g ∈ collectorGyms table)
    (hnodup : ((collectorGyms table).map (fun x => x.id)).Nodup) :
    (store.changes.filter (fun e => decide (e.gym_id = g.id)) = [] →
      ((trackTeamChanges store.changes table now).filter
          (fun e => decide (e.gym_id = g.id))).filter
        (fun e => decide (e.old_team_id = none)) =
        [⟨g.id, none, g.team_id, now⟩]) ∧
    (∀ last, lastOwner store.changes g.id = some last → last ≠ none →
      ((trackTeamChanges store.changes table now).filter
          (fun e => decide (e.gym_id = g.id))).filter
        (fun e => decide (e.old_team_id = none)) = []) ∧
    (lastOwner store.changes g.id = some none → g.team_id = none →
      ((trackTeamChanges store.changes table now).filter
          (fun e => decide (e.gym_id = g.id))).filter
        (fun e => decide (e.old_team_id = none)) = []) ∧
    (lastOwner store.changes g.id = some none → g.team_id ≠ none →
      ((trackTeamChanges store.changes table now).filter
          (fun e => decide (e.gym_id = g.id))).filter
        (fun e => decide (e.old_team_id = none)) =
        [⟨g.id, none, g.team_id, now⟩]) := by
  have hmain := trackAux_filter_of_mem now (fun gid => lastOwner store.changes gid)
    (collectorGyms table) g hg hnodup
  simp only [trackTeamChanges]
  refine ⟨fun h0 => ?_, fun last hl hne => ?_, fun hl h0 => ?_, fun hl hne => ?_⟩
  · rw [hmain]
    have : lastOwner store.changes g.id = none := (lastOwner_eq_none_iff _ _).mpr h0
    simp only [this]
    simp
  · rw [hmain]
    simp only [hl]
    by_cases hlg : last = g.team_id
    · simp [hlg]
    · simp [hlg, hne]
  · rw [hmain]
    simp only [hl, h0]
    simp
  · rw [hmain]
    simp only [hl]
    have : (none : Option Nat) ≠ g.team_id := fun hEq => hne hEq.symm
    simp [this]

/-- Witness for amended C2: facility "b" has no stored event, so the run at
time 200 appends exactly one first-observation event for it. -/
theorem first_observation_emission_witness :
    demoGym "b" (some 1) ∈ collectorGyms demoTable ∧
    ((collectorGyms demoTable).map (fun x => x.id)).Nodup ∧
    demoStore.changes.filter
        (fun e => decide (e.gym_id = (demoGym "b" (some 1)).id)) = [] ∧
    ((trackTeamChanges demoStore.changes demoTable 200).filter
        (fun e => decide (e.gym_id = (demoGym "b" (some 1)).id))).filter
      (fun e => decide (e.old_team_id = none)) =
      [⟨(demoGym "b" (some 1)).id, none, (demoGym "b" (some 1)).team_id, 200⟩] :=
  ⟨by decide, by decide, by decide,
    (first_observation_emission demoStore demoTable 200 (demoGym "b" (some 1))
        (by decide) (by decide)).1 (by decide)⟩

/-- Claim C3: one collector invocation is all-or-nothing: the history
append, every change-event append and the retention deletes form one write
list; a committed run applies exactly that list (exit code 0), and a run
failing at any statement rolls the transaction back, leaving the store
exactly as before the call, with a nonzero exit code. -/
theorem collector_all_or_nothing (store : Store) (table : List GymRecord)
    (now ret : Nat) (failAt : Option Nat) :
    (failAt = none ∧ collectorRun store table now ret failAt =
      ((collectorOps store table now ret).foldl applyOp store, 0)) ∨
    (failAt ≠ none ∧ collectorRun store table now ret failAt = (store, 1)) := by
  cases failAt with
  | none => exact Or.inl ⟨rfl, rfl⟩
  | some k => exact Or.inr ⟨by simp, rfl⟩

/-- Claim C8: every collector invocation runs the retention sweep: after a
committed run, no history row and no change row older than the retention
window remains, and every pre-existing or newly appended row within the
window survives. -/
theorem retention_sweep (store : Store) (table : List GymRecord) (now ret : Nat) :
    (∀ h ∈ (collectGymHistory store table now ret).history,
      ¬ h.timestamp < now - ret) ∧
    (∀ e ∈ (collectGymHistory store table now ret).changes,
      ¬ e.changed_at < now - ret) ∧
    (∀ h, (h ∈ store.history ∨ h = historySampleOf table now) →
      ¬ h.timestamp < now - ret →
      h ∈ (collectGymHistory store table now ret).history) ∧
    (∀ e, (e ∈ store.changes ∨ e ∈ trackTeamChanges store.changes table now) →
      ¬ e.changed_at < now - ret →
      e ∈ (collectGymHistory store table now ret).changes) := by
  simp only [collectGymHistory_eq, pruneHistory, pruneChanges, List.mem_filter,
    List.mem_append, List.mem_singleton, Bool.not_eq_true, decide_eq_false_iff_not,
    Decidable.not_not]
  refine ⟨fun h hh => ?_, fun e he => ?_, fun h hh hlt => ?_, fun e he hlt => ?_⟩
  · simpa using hh.2
  · simpa using he.2
  · exact ⟨hh, by simpa using hlt⟩
  · exact ⟨he, by simpa using hlt⟩

/-- Witness for C8: the freshly appended sample of a run at time 200 with
retention 100 is within the window and survives. -/
theorem retention_sweep_witness :
    ¬ (historySampleOf demoTable 200).timestamp < 200 - 100 ∧
    historySampleOf demoTable 200 ∈
      (collectGymHistory demoStore demoTable 200 100).history :=
  ⟨by decide,
    (retention_sweep demoStore demoTable 200 100).2.2.1 _ (Or.inr rfl) (by decide)⟩

/-- `fetchGymHistory` on the success path, field by field. -/
theorem fetchGymHistoryOk_eq (period : String) (store : Store)
    (table : List GymRecord) (now : Nat) :
    fetchGymHistoryOk period store table now =
      { period := normalizePeriod period
        chartData := buildChartData (historyQueryRows now (periodDuration period)
          (periodBucket period) store.history)
        contestedGyms := (contestedQueryRows store.changes table now
            (periodDuration period)).map (fun r =>
          { gym_id := r.gym_id, name := r.name, lat := r.lat, lon := r.lon
            url := r.url, current_team := r.current_team.getD 0
            change_count := r.change_count, last_changed := r.last_changed * 1000
            recent_changes := mapRecentChanges (recentQueryRows store.changes
                ((contestedQueryRows store.changes table now
                  (periodDuration period)).map (fun x => x.gym_id)))
              r.gym_id })
        currentCounts := currentCountsOf store.history
        lastUpdatedMs := lastUpdatedMsOf store.history } := by
  unfold fetchGymHistoryOk fetchGymHistory periodDuration periodBucket
  dsimp only
  cases hrows : contestedQueryRows store.changes table now
      (periodConfig (normalizePeriod period)).1 with
  | nil => rfl
  | cons r rs => rfl

/-- A value is a bucket key exactly when some in-window sample falls into
that bucket. -/
theorem mem_bucketKeys (now dur bsz : Nat) (hist : List HistorySample) (b : Nat) :
    b ∈ bucketKeys now dur bsz hist ↔
      ∃ s, s ∈ hist ∧ now - dur ≤ s.timestamp ∧ s.timestamp / bsz * bsz = b := by
  unfold bucketKeys windowSamples bucketStart
  rw [(sortBy_perm _ _).mem_iff, List.mem_dedup]
  simp only [List.mem_map, List.mem_filter, decide_eq_true_eq]
  constructor
  · rintro ⟨s, ⟨hs, hw⟩, hb⟩
    exact ⟨s, hs, hw, hb⟩
  · rintro ⟨s, hs, hw, hb⟩
    exact ⟨s, ⟨hs, hw⟩, hb⟩

/-- The bucket keys are strictly ascending. -/
theorem bucketKeys_sorted (now dur bsz : Nat) (hist : List HistorySample) :
    List.Sorted (fun a b => a < b) (bucketKeys now dur bsz hist) := by
  have hle : List.Pairwise (fun a b : Nat => decide (a ≤ b) = true)
      (bucketKeys now dur bsz hist) :=
    sortBy_pairwise (fun a b c hab hbc => by
        simp only [decide_eq_true_eq] at *
        omega)
      (fun a b => by
        simp only [decide_eq_true_eq]
        omega) _
  have hnd : (bucketKeys now dur bsz hist).Nodup :=
    (sortBy_perm _ _).nodup_iff.mpr (List.nodup_dedup _)
  exact (hle.and hnd).imp (fun h => by
    simp only [decide_eq_true_eq] at h
    omega)

/-- Claim C4: for every `getHistory(periodKey)` call the chartData series
has exactly one point per bucket holding at least one in-window sample (the
populated buckets, with strictly ascending times, so empty buckets
contribute no point), and each point carries the bucket start in
milliseconds, the within-bucket averages rounded half-up to the nearest
integer, and the total re-derived at read time as the max of the rounded
recorded total and the sum of the three rounded faction values. -/
theorem getHistory_chartData_spec (period : String) (store : Store)
    (table : List GymRecord) (now : Nat) :
    (∀ b : Nat,
      b ∈ bucketKeys now (periodDuration period) (periodBucket period)
          store.history ↔
        ∃ s, s ∈ store.history ∧ now - periodDuration period ≤ s.timestamp ∧
          s.timestamp / periodBucket period * periodBucket period = b) ∧
    ((fetchGymHistoryOk period store table now).chartData =
      (bucketKeys now (periodDuration period) (periodBucket period)
          store.history).map (fun b =>
        let l := bucketSamples now (periodDuration period) (periodBucket period)
          b store.history
        { time := b * 1000
          mystic := mathRound ((l.map (fun s => s.team_mystic)).sum) l.length
          valor := mathRound ((l.map (fun s => s.team_valor)).sum) l.length
          instinct := mathRound ((l.map (fun s => s.team_instinct)).sum) l.length
          total := max (mathRound ((l.map (fun s => s.total_gyms)).sum) l.length)
            (mathRound ((l.map (fun s => s.team_mystic)).sum) l.length +
              mathRound ((l.map (fun s => s.team_valor)).sum) l.length +
              mathRound ((l.map (fun s => s.team_instinct)).sum) l.length) })) ∧
    List.Sorted (fun p q => p < q)
      ((fetchGymHistoryOk period store table now).chartData.map (fun p => p.time)) := by
  have hchart : (fetchGymHistoryOk period store table now).chartData =
      buildChartData (historyQueryRows now (periodDuration period)
        (periodBucket period) store.history) := by
    rw [fetchGymHistoryOk_eq]
  refine ⟨fun b => mem_bucketKeys now _ _ store.history b, ?_, ?_⟩
  · rw [hchart]
    unfold buildChartData historyQueryRows
    rw [List.map_map]
    rfl
  · rw [hchart]
    unfold buildChartData historyQueryRows
    rw [List.map_map, List.map_map]
    refine List.Pairwise.map _ (fun a b hab => ?_)
      (bucketKeys_sorted now (periodDuration period) (periodBucket period)
        store.history)
    show a * 1000 < b * 1000
    omega

/-- Folding the latest-sample pick from a `some` start yields a maximal
element of the candidates. -/
theorem latestSampleAux (xs : List HistorySample) (b : HistorySample) :
    ∃ m, xs.foldl
        (fun acc s =>
          match acc with
          | none => some s
          | some b => if b.timestamp < s.timestamp then some s else acc)
        (some b) = some m ∧
      (m = b ∨ m ∈ xs) ∧ b.timestamp ≤ m.timestamp ∧
      ∀ h ∈ xs, h.timestamp ≤ m.timestamp := by
  induction xs generalizing b with
  | nil => exact ⟨b, rfl, Or.inl rfl, Nat.le_refl _, by simp⟩
  | cons x rest ih =>
    by_cases hx : b.timestamp < x.timestamp
    · obtain ⟨m, hm, hmem, hle, hall⟩ := ih x
      refine ⟨m, by simpa [hx] using hm, ?_, Nat.le_trans (Nat.le_of_lt hx) hle, ?_⟩
      · rcases hmem with rfl | h
        · exact Or.inr (List.mem_cons_self _ _)
        · exact Or.inr (List.mem_cons_of_mem _ h)
      · intro h hh
        rcases List.mem_cons.mp hh with rfl | h2
        · exact hle
        · exact hall h h2
    · obtain ⟨m, hm, hmem, hle, hall⟩ := ih b
      refine ⟨m, by simpa [hx] using hm, ?_, hle, ?_⟩
      · rcases hmem with rfl | h
        · exact Or.inl rfl
        · exact Or.inr (List.mem_cons_of_mem _ h)
      · intro h hh
        rcases List.mem_cons.mp hh with rfl | h2
        · exact Nat.le_trans (Nat.le_of_not_lt hx) hle
        · exact hall h h2

/-- On a non-empty table the latest-sample query returns a member with
maximal timestamp. -/
theorem latestSample_spec (hist : List HistorySample) (hne : hist ≠ []) :
    ∃ l, latestSample hist = some l ∧ l ∈ hist ∧
      ∀ h ∈ hist, h.timestamp ≤ l.timestamp := by
  cases hist with
  | nil => exact absurd rfl hne
  | cons x rest =>
    obtain ⟨m, hm, hmem, hle, hall⟩ := latestSampleAux rest x
    refine ⟨m, ?_, ?_, ?_⟩
    · unfold latestSample
      simpa using hm
    · rcases hmem with rfl | h
      · exact List.mem_cons_self _ _
      · exact List.mem_cons_of_mem _ h
    · intro h hh
      rcases List.mem_cons.mp hh with rfl | h2
      · exact hle
      · exact hall h h2

/-- Claim C5: `currentCounts` and `lastUpdated` are derived from the single
most-recent HistorySample row in the whole table, ignoring the period
filter — so they are identical for every requested periodKey — with total
re-derived as `max(recordedTotal, a+b+c)`; with no row at all the counts
are all zero and lastUpdated is the epoch. -/
theorem getHistory_currentCounts_spec (p1 p2 : String) (store : Store)
    (table : List GymRecord) (now : Nat) :
    ((fetchGymHistoryOk p1 store table now).currentCounts =
        (fetchGymHistoryOk p2 store table now).currentCounts ∧
      (fetchGymHistoryOk p1 store table now).lastUpdatedMs =
        (fetchGymHistoryOk p2 store table now).lastUpdatedMs) ∧
    (store.history = [] →
      (fetchGymHistoryOk p1 store table now).currentCounts = ⟨0, 0, 0, 0⟩ ∧
      (fetchGymHistoryOk p1 store table now).lastUpdatedMs = 0) ∧
    (store.history ≠ [] →
      ∃ l, l ∈ store.history ∧
        (∀ h ∈ store.history, h.timestamp ≤ l.timestamp) ∧
        (fetchGymHistoryOk p1 store table now).currentCounts =
          ⟨l.team_mystic, l.team_valor, l.team_instinct,
            max l.total_gyms (l.team_mystic + l.team_valor + l.team_instinct)⟩ ∧
        (fetchGymHistoryOk p1 store table now).lastUpdatedMs =
          l.timestamp * 1000) := by
  rw [fetchGymHistoryOk_eq p1 store table now, fetchGymHistoryOk_eq p2 store table now]
  refine ⟨⟨rfl, rfl⟩, fun hemp => ?_, fun hne => ?_⟩
  · rw [hemp]
    exact ⟨rfl, rfl⟩
  · obtain ⟨l, hl, hmem, hall⟩ := latestSample_spec store.history hne
    exact ⟨l, hmem, hall, by simp [currentCountsOf, hl], by simp [lastUpdatedMsOf, hl]⟩

/-- Witness for C5: on a concrete store the counts for "6h" and "7d" agree
and come from the maximal-timestamp row. -/
theorem getHistory_currentCounts_witness :
    demoStore2.history ≠ [] ∧
    ∃ l, l ∈ demoStore2.history ∧
      (∀ h ∈ demoStore2.history, h.timestamp ≤ l.timestamp) ∧
      (fetchGymHistoryOk "6h" demoStore2 demoTable 1000).currentCounts =
        ⟨l.team_mystic, l.team_valor, l.team_instinct,
          max l.total_gyms (l.team_mystic + l.team_valor + l.team_instinct)⟩ ∧
      (fetchGymHistoryOk "6h" demoStore2 demoTable 1000).lastUpdatedMs =
        l.timestamp * 1000 :=
  ⟨by decide,
    (getHistory_currentCounts_spec "6h" "7d" demoStore2 demoTable 1000).2.2
      (by decide)⟩

/-- The ranking comparator is transitive. -/
theorem contestedLE_trans (a b c : ContestedRow) :
    contestedLE a b = true → contestedLE b c = true → contestedLE a c = true := by
  unfold contestedLE
  simp only [Bool.or_eq_true, Bool.and_eq_true, decide_eq_true_eq]
  omega

/-- The ranking comparator is total. -/
theorem contestedLE_total (a b : ContestedRow) :
    contestedLE a b = true ∨ contestedLE b a = true := by
  unfold contestedLE
  simp only [Bool.or_eq_true, Bool.and_eq_true, decide_eq_true_eq]
  omega

/-- The ranked rows are sorted by the ranking comparator. -/
theorem contestedQueryRows_sorted (changes : List ChangeEvent)
    (table : List GymRecord) (now dur : Nat) :
    List.Pairwise (fun a b => contestedLE a b = true)
      (contestedQueryRows changes table now dur) := by
  unfold contestedQueryRows
  exact List.Pairwise.sublist (List.take_sublist _ _)
    (sortBy_pairwise contestedLE_trans contestedLE_total _)

/-- At most 20 rows are ranked. -/
theorem contestedQueryRows_length (changes : List ChangeEvent)
    (table : List GymRecord) (now dur : Nat) :
    (contestedQueryRows changes table now dur).length ≤ 20 := by
  unfold contestedQueryRows
  exact List.length_take_le _ _

/-- Every ranked row's `change_count` counts exactly the facility's
in-window events, and its `last_changed` is their maximal `changed_at`. -/
theorem contestedQueryRows_count (changes : List ChangeEvent)
    (table : List GymRecord) (now dur : Nat) (r : ContestedRow)
    (hr : r ∈ contestedQueryRows changes table now dur) :
    r.change_count = ((eventsInWindow changes now dur).filter
      (fun e => decide (e.gym_id = r.gym_id))).length ∧
    r.last_changed = maxChangedAt ((eventsInWindow changes now dur).filter
      (fun e => decide (e.gym_id = r.gym_id))) := by
  unfold contestedQueryRows at hr
  have hr2 := (sortBy_perm _ _).mem_iff.mp (List.mem_of_mem_take hr)
  obtain ⟨g, hq, heq⟩ := List.mem_filterMap.mp hr2
  dsimp only at heq
  by_cases he : ((eventsInWindow changes now dur).filter
      (fun e => decide (e.gym_id = g.id))).isEmpty
  · rw [if_pos he] at heq
    cases heq
  · rw [if_neg he] at heq
    injection heq with h2
    subst h2
    exact ⟨rfl, rfl⟩

/-- Claim C6: for every getHistory call the contestedGyms list has at most
20 entries, is ordered by change_count descending with ties broken by
last_changed descending, and each entry's change_count counts all of the
facility's ChangeEvents inside the period window (first-observation rows
included). -/
theorem getHistory_contested_ranking (period : String) (store : Store)
    (table : List GymRecord) (now : Nat) :
    ((fetchGymHistoryOk period store table now).contestedGyms.length ≤ 20) ∧
    List.Sorted (fun a b : ContestedGym =>
      b.change_count < a.change_count ∨
        (a.change_count = b.change_count ∧ b.last_changed ≤ a.last_changed))
      (fetchGymHistoryOk period store table now).contestedGyms ∧
    (∀ r ∈ (fetchGymHistoryOk period store table now).contestedGyms,
      r.change_count = ((eventsInWindow store.changes now
          (periodDuration period)).filter
        (fun e => decide (e.gym_id = r.gym_id))).length) := by
  rw [fetchGymHistoryOk_eq]
  refine ⟨?_, ?_, ?_⟩
  · simpa using contestedQueryRows_length store.changes table now (periodDuration period)
  · refine List.Pairwise.map _ (fun a b hab => ?_)
      (contestedQueryRows_sorted store.changes table now (periodDuration period))
    unfold contestedLE at hab
    simp only [Bool.or_eq_true, Bool.and_eq_true, decide_eq_true_eq] at hab
    show b.change_count < a.change_count ∨
      (a.change_count = b.change_count ∧ b.last_changed * 1000 ≤ a.last_changed * 1000)
    omega
  · intro r hr
    obtain ⟨row, hrow, rfl⟩ := List.mem_map.mp hr
    exact (contestedQueryRows_count store.changes table now (periodDuration period)
      row hrow).1

/-- Witness for C6: on a concrete store, facility "a" is ranked with
change_count 2 equal to its number of in-window events. -/
theorem getHistory_contested_ranking_witness :
    ({ gym_id := "a", name := "a", lat := 0, lon := 0, url := ""
       current_team := 2, change_count := 2, last_changed := 600000
       recent_changes := [⟨some 1, some 2, 600000⟩, ⟨none, some 1, 500000⟩] }
      : ContestedGym) ∈
      (fetchGymHistoryOk "6h" demoStore2 demoTable 1000).contestedGyms ∧
    ({ gym_id := "a", name := "a", lat := 0, lon := 0, url := ""
       current_team := 2, change_count := 2, last_changed := 600000
       recent_changes := [⟨some 1, some 2, 600000⟩, ⟨none, some 1, 500000⟩] }
      : ContestedGym).change_count =
      ((eventsInWindow demoStore2.changes 1000 (periodDuration "6h")).filter
        (fun e => decide (e.gym_id =
          ({ gym_id := "a", name := "a", lat := 0, lon := 0, url := ""
             current_team := 2, change_count := 2, last_changed := 600000
             recent_changes := [⟨some 1, some 2, 600000⟩, ⟨none, some 1, 500000⟩] }
            : ContestedGym).gym_id))).length :=
  ⟨by decide,
    (getHistory_contested_ranking "6h" demoStore2 demoTable 1000).2.2 _ (by decide)⟩

/-- Claim C7: a failing store read in any of the three read operations
yields the documented empty/zero shape instead of an error: the empty
history response for `fetchGymHistory` (whichever of its four queries
throws), `DEFAULT_GYM_RESULT` for `fetchGymSnapshot`, and `DEFAULT_STATS`
for `fetchDefenderStats`. -/
theorem query_layer_empty_on_failure (period : String)
    (qHistory : Except Unit (List HistoryRow))
    (qLatest : Except Unit (Option HistorySample))
    (qContested : Except Unit (List ContestedRow))
    (qRecent : List String → Except Unit (List ChangeEvent))
    (qSnap : Except Unit (List GymRecord))
    (qStats : Except Unit (List GymRecord)) :
    (qHistory = .error () →
      fetchGymHistory period qHistory qLatest qContested qRecent =
        emptyHistoryResponse (normalizePeriod period)) ∧
    (qLatest = .error () →
      fetchGymHistory period qHistory qLatest qContested qRecent =
        emptyHistoryResponse (normalizePeriod period)) ∧
    (qContested = .error () →
      fetchGymHistory period qHistory qLatest qContested qRecent =
        emptyHistoryResponse (normalizePeriod period)) ∧
    (∀ rows, qContested = .ok rows → rows ≠ [] →
      qRecent (rows.map (fun r => r.gym_id)) = .error () →
      fetchGymHistory period qHistory qLatest qContested qRecent =
        emptyHistoryResponse (normalizePeriod period)) ∧
    (qSnap = .error () → fetchGymSnapshot qSnap = (defaultGymResult, 0)) ∧
    (qStats = .error () → fetchDefenderStats qStats = (defaultStats, 0)) := by
  refine ⟨fun h1 => ?_, fun h2 => ?_, fun h3 => ?_, fun rows hrows hne hrec => ?_,
    fun h5 => ?_, fun h6 => ?_⟩
  · subst h1
    rfl
  · subst h2
    cases qHistory with
    | error u => rfl
    | ok hrows => rfl
  · subst h3
    cases qHistory with
    | error u => rfl
    | ok hrows =>
      cases qLatest with
      | error u => rfl
      | ok l => rfl
  · subst hrows
    cases qHistory with
    | error u => rfl
    | ok hrows =>
      cases qLatest with
      | error u => rfl
      | ok l =>
        cases rows with
        | nil => exact absurd rfl hne
        | cons r rs =>
          unfold fetchGymHistory
          dsimp only
          rw [hrec]
          simp
  · subst h5
    rfl
  · subst h6
    rfl

/-- Witness for C7: concrete failing reads produce the empty shapes. -/
theorem query_layer_empty_on_failure_witness :
    fetchGymHistory "6h" (.error ()) (.ok none) (.ok []) (fun _ => .ok []) =
      emptyHistoryResponse (normalizePeriod "6h") ∧
    fetchGymSnapshot (.error ()) = (defaultGymResult, 0) ∧
    fetchDefenderStats (.error ()) = (defaultStats, 0) :=
  ⟨(query_layer_empty_on_failure "6h" (.error ()) (.ok none) (.ok [])
      (fun _ => .ok []) (.error ()) (.error ())).1 rfl,
   (query_layer_empty_on_failure "6h" (.error ()) (.ok none) (.ok [])
      (fun _ => .ok []) (.error ()) (.error ())).2.2.2.2.1 rfl,
   (query_layer_empty_on_failure "6h" (.error ()) (.ok none) (.ok [])
      (fun _ => .ok []) (.error ()) (.error ())).2.2.2.2.2 rfl⟩

/-- One snapshot step, written with conditional contributions. -/
theorem snapStep_eq (acc : GymApiResult × Nat) (g : GymRecord) :
    snapStep acc g =
      ({ mystic := acc.1.mystic ++ (if g.team_id = some 1 then [gymOfRow g] else [])
         valor := acc.1.valor ++ (if g.team_id = some 2 then [gymOfRow g] else [])
         instinct := acc.1.instinct ++ (if g.team_id = some 3 then [gymOfRow g] else [])
         counts :=
           ⟨acc.1.counts.mystic + (if g.team_id = some 1 then 1 else 0),
            acc.1.counts.valor + (if g.team_id = some 2 then 1 else 0),
            acc.1.counts.instinct + (if g.team_id = some 3 then 1 else 0)⟩ },
       acc.2 + (if g.defenders = some RawPayload.invalid then 1 else 0)) := by
  unfold snapStep snapshotWarn
  by_cases h1 : g.team_id = some 1
  · simp [h1]
  · by_cases h2 : g.team_id = some 2
    · simp [h1, h2]
    · by_cases h3 : g.team_id = some 3
      · simp [h1, h2, h3]
      · simp [h1, h2, h3]

/-- The snapshot fold, in closed form: each faction list collects its rows
in order, counts are the filter lengths, and the warning counter counts the
parse failures. -/
theorem snapshot_foldl (rows : List GymRecord) (res : GymApiResult) (w : Nat) :
    rows.foldl snapStep (res, w) =
      ({ mystic := res.mystic ++
            (rows.filter (fun g => decide (g.team_id = some 1))).map gymOfRow
         valor := res.valor ++
            (rows.filter (fun g => decide (g.team_id = some 2))).map gymOfRow
         instinct := res.instinct ++
            (rows.filter (fun g => decide (g.team_id = some 3))).map gymOfRow
         counts :=
           ⟨res.counts.mystic +
              (rows.filter (fun g => decide (g.team_id = some 1))).length,
            res.counts.valor +
              (rows.filter (fun g => decide (g.team_id = some 2))).length,
            res.counts.instinct +
              (rows.filter (fun g => decide (g.team_id = some 3))).length⟩ },
       w + (rows.filter
          (fun g => decide (g.defenders = some RawPayload.invalid))).length) := by
  induction rows generalizing res w with
  | nil => simp
  | cons g rest ih =>
    rw [List.foldl_cons, snapStep_eq, ih]
    simp only [List.filter_cons, decide_eq_true_eq]
    split_ifs <;> simp_all [List.append_assoc] <;> omega

/-- The stats warning counter advances exactly on malformed payloads. -/
theorem statsStep_snd (acc : AggState × Nat) (r : GymRecord) :
    (statsStep acc r).2 =
      acc.2 + (if isMalformedPayload r.defenders then 1 else 0) := by
  unfold statsStep isMalformedPayload
  cases hd : r.defenders with
  | none => simp
  | some p =>
    cases p with
    | invalid => simp
    | nonArray => simp
    | defenderList l => split_ifs <;> simp_all

/-- The aggregation state after one stats step does not depend on the
warning counter. -/
theorem statsStep_fst_irrel (a : AggState) (w w' : Nat) (r : GymRecord) :
    (statsStep (a, w) r).1 = (statsStep (a, w') r).1 := by
  unfold statsStep
  cases hd : r.defenders with
  | none => rfl
  | some p =>
    cases p with
    | invalid => rfl
    | nonArray => rfl
    | defenderList l => split_ifs <;> rfl

/-- A malformed payload leaves the aggregation state untouched. -/
theorem statsStep_fst_malformed (acc : AggState × Nat) (r : GymRecord)
    (h : isMalformedPayload r.defenders = true) :
    statsStep acc r = (acc.1, acc.2 + 1) := by
  unfold statsStep
  unfold isMalformedPayload at h
  cases hd : r.defenders with
  | none => rw [hd] at h; cases h
  | some p =>
    cases p with
    | invalid => rfl
    | nonArray => rfl
    | defenderList l => rw [hd] at h; cases h

/-- The stats fold counts one warning per malformed row. -/
theorem stats_foldl_snd (rows : List GymRecord) :
    ∀ (a : AggState) (w : Nat),
      (rows.foldl statsStep (a, w)).2 =
        w + (rows.filter (fun g => isMalformedPayload g.defenders)).length := by
  induction rows with
  | nil => intro a w; simp
  | cons g rest ih =>
    intro a w
    rw [List.foldl_cons]
    rcases hstep : statsStep (a, w) g with ⟨a2, w2⟩
    have hw2 : w2 = w + (if isMalformedPayload g.defenders then 1 else 0) := by
      have := statsStep_snd (a, w) g
      rw [hstep] at this
      exact this
    rw [List.filter_cons]
    by_cases hm : isMalformedPayload g.defenders = true
    · simp only [hm, if_pos rfl, ih a2 w2]
      simp only [hm] at hw2
      simp [hw2]
      omega
    · have hm2 : isMalformedPayload g.defenders = false := by
        cases hmm : isMalformedPayload g.defenders
        · rfl
        · exact absurd hmm hm
      simp only [hm2, ih a2 w2]
      simp only [hm2] at hw2
      simp [hw2]

/-- The stats fold's aggregation state does not depend on the starting
warning counter. -/
theorem stats_foldl_fst_irrel (rows : List GymRecord) :
    ∀ (a : AggState) (w w' : Nat),
      (rows.foldl statsStep (a, w)).1 = (rows.foldl statsStep (a, w')).1 := by
  induction rows with
  | nil => intro a w w'; rfl
  | cons g rest ih =>
    intro a w w'
    rw [List.foldl_cons, List.foldl_cons]
    rcases hstep : statsStep (a, w) g with ⟨a2, w2⟩
    rcases hstep2 : statsStep (a, w') g with ⟨a3, w3⟩
    have : a2 = a3 := by
      have h := statsStep_fst_irrel a w w' g
      rw [hstep, hstep2] at h
      exact h
    rw [this]
    exact ih a3 w2 w3

/-- Dropping the malformed rows does not change the aggregation state. -/
theorem stats_foldl_fst_filter (rows : List GymRecord) :
    ∀ (a : AggState) (w : Nat),
      (rows.foldl statsStep (a, w)).1 =
        ((rows.filter (fun g => !(isMalformedPayload g.defenders))).foldl
          statsStep (a, w)).1 := by
  induction rows with
  | nil => intro a w; rfl
  | cons g rest ih =>
    intro a w
    rw [List.foldl_cons, List.filter_cons]
    by_cases hm : isMalformedPayload g.defenders = true
    · rw [statsStep_fst_malformed (a, w) g hm]
      have : (!(isMalformedPayload g.defenders)) = false := by simp [hm]
      rw [this]
      simp only [Bool.false_eq_true, if_neg (by simp : ¬ (false = true))]
      rw [ih a (w + 1)]
      exact stats_foldl_fst_irrel _ a (w + 1) w
    · have hm2 : (!(isMalformedPayload g.defenders)) = true := by
        simp only [Bool.not_eq_true']
        cases hmm : isMalformedPayload g.defenders
        · rfl
        · exact absurd hmm hm
      rw [hm2, if_pos rfl, List.foldl_cons]
      rcases hstep : statsStep (a, w) g with ⟨a2, w2⟩
      exact ih a2 w2

/-- Counterexample to C9 as stated: a facility whose stored payload parses
to a non-array value is NOT skipped by `fetchGymSnapshot` and logs no
warning — the unchecked parsed value is passed through as the gym's
`defenders` field. -/
theorem snapshot_nonarray_passthrough :
    (fetchGymSnapshotOk [c9Gym] 100 3600).2 = 0 ∧
    ((fetchGymSnapshotOk [c9Gym] 100 3600).1.mystic.map (fun g => g.defenders)) =
      [DefendersValue.raw] := by decide

/-- Claim C9 (amended): `fetchDefenderStats` warns once for and skips every
facility whose payload fails to parse or parses to a non-array — the
aggregation over the remaining facilities is exactly the aggregation over
the table with the malformed rows removed; `fetchGymSnapshot` warns once
per parse failure (substituting an empty defender list via `gymOfRow`) but
passes a parsed non-array payload through without a warning, and in all
cases every queried facility of factions 1–3 still contributes its row to
the response. -/
theorem defender_stats_malformed_skipped (table : List GymRecord) (now tw : Nat) :
    ((fetchDefenderStatsOk table).1 =
      (fetchDefenderStatsOk (table.filter
        (fun g => !(isMalformedPayload g.defenders)))).1) ∧
    ((fetchDefenderStatsOk table).2 =
      ((statsQuery table).filter (fun g => isMalformedPayload g.defenders)).length) ∧
    ((fetchGymSnapshotOk table now tw).2 =
      ((snapshotQuery table now tw).filter
        (fun g => decide (g.defenders = some RawPayload.invalid))).length) ∧
    ((fetchGymSnapshotOk table now tw).1.mystic =
      ((snapshotQuery table now tw).filter
        (fun g => decide (g.team_id = some 1))).map gymOfRow) ∧
    ((fetchGymSnapshotOk table now tw).1.valor =
      ((snapshotQuery table now tw).filter
        (fun g => decide (g.team_id = some 2))).map gymOfRow) ∧
    ((fetchGymSnapshotOk table now tw).1.instinct =
      ((snapshotQuery table now tw).filter
        (fun g => decide (g.team_id = some 3))).map gymOfRow) := by
  refine ⟨?_, ?_, ?_, ?_, ?_, ?_⟩
  · unfold fetchDefenderStatsOk fetchDefenderStats
    dsimp only
    have hq : statsQuery (table.filter (fun g => !(isMalformedPayload g.defenders))) =
        (statsQuery table).filter (fun g => !(isMalformedPayload g.defenders)) := by
      unfold statsQuery
      rw [List.filter_comm]
    rw [hq, ← stats_foldl_fst_filter]
  · unfold fetchDefenderStatsOk fetchDefenderStats
    dsimp only
    rw [stats_foldl_snd]
    simp
  · unfold fetchGymSnapshotOk fetchGymSnapshot
    dsimp only
    rw [snapshot_foldl]
    simp [defaultGymResult]
  · unfold fetchGymSnapshotOk fetchGymSnapshot
    dsimp only
    rw [snapshot_foldl]
    simp [defaultGymResult]
  · unfold fetchGymSnapshotOk fetchGymSnapshot
    dsimp only
    rw [snapshot_foldl]
    simp [defaultGymResult]
  · unfold fetchGymSnapshotOk fetchGymSnapshot
    dsimp only
    rw [snapshot_foldl]
    simp [defaultGymResult]

/-- Claim C10: in every snapshot response the three counters equal the
lengths of the corresponding faction lists, every listed gym has the
matching `team_id` 1, 2 or 3, and facilities with any other `team_id`
appear in no list and are counted nowhere. -/
theorem snapshot_counts_teams (table : List GymRecord) (now tw : Nat) :
    ((fetchGymSnapshotOk table now tw).1.counts.mystic =
        (fetchGymSnapshotOk table now tw).1.mystic.length ∧
      (fetchGymSnapshotOk table now tw).1.counts.valor =
        (fetchGymSnapshotOk table now tw).1.valor.length ∧
      (fetchGymSnapshotOk table now tw).1.counts.instinct =
        (fetchGymSnapshotOk table now tw).1.instinct.length) ∧
    (∀ g ∈ (fetchGymSnapshotOk table now tw).1.mystic, g.team_id = some 1) ∧
    (∀ g ∈ (fetchGymSnapshotOk table now tw).1.valor, g.team_id = some 2) ∧
    (∀ g ∈ (fetchGymSnapshotOk table now tw).1.instinct, g.team_id = some 3) := by
  unfold fetchGymSnapshotOk fetchGymSnapshot
  dsimp only
  rw [snapshot_foldl]
  dsimp only
  refine ⟨⟨by simp [defaultGymResult], by simp [defaultGymResult],
    by simp [defaultGymResult]⟩, ?_, ?_, ?_⟩
  · intro g hg
    simp only [defaultGymResult, List.nil_append, List.mem_map] at hg
    obtain ⟨row, hrow, rfl⟩ := hg
    have := (List.mem_filter.mp hrow).2
    simp only [decide_eq_true_eq] at this
    exact this
  · intro g hg
    simp only [defaultGymResult, List.nil_append, List.mem_map] at hg
    obtain ⟨row, hrow, rfl⟩ := hg
    have := (List.mem_filter.mp hrow).2
    simp only [decide_eq_true_eq] at this
    exact this
  · intro g hg
    simp only [defaultGymResult, List.nil_append, List.mem_map] at hg
    obtain ⟨row, hrow, rfl⟩ := hg
    have := (List.mem_filter.mp hrow).2
    simp only [decide_eq_true_eq] at this
    exact this

/-- Witness for C10: the single faction-1 facility of a concrete snapshot
is listed under mystic with `team_id = some 1`. -/
theorem snapshot_counts_teams_witness :
    gymOfRow c9Gym ∈ (fetchGymSnapshotOk [c9Gym] 100 3600).1.mystic ∧
    (gymOfRow c9Gym).team_id = some 1 :=
  ⟨by decide,
    (snapshot_counts_teams [c9Gym] 100 3600).2.1 (gymOfRow c9Gym) (by decide)⟩
